import Mathlib

/-!
Verification of the conversation/session coordinator of the modern-ai-chatbot
server (`src/server.js`).

The server keeps two module-level JavaScript `Map`s:
`conversationHistory : Map<string, Array<Message>>` and
`activeConnections : Map<string, Connection>`.  A JS `Map` holds *references*
to arrays, and the handlers mutate those arrays in place (`history.push(...)`)
before calling `conversationHistory.set(...)`.  To model this aliasing
faithfully the store is embedded as a tiny heap: `map` binds a conversation
key to an array identifier, `heap` binds an array identifier to its contents,
and `nextId` is the allocator counter.  `history.push` is an in-place heap
update (visible through the map whenever the key is bound to that array),
while `Map.set` only updates the key binding.

Each chat handler is split at its unique suspension point (the `await` of the
provider call): `chatPhase1` is the synchronous prefix (get-or-create the
history array, push the user turn, build the provider message list) and
`chatPhase2` is the synchronous suffix run when the provider succeeds (push
the assistant turn, `Map.set`).  The HTTP and socket entry points compose the
phases with the provider outcome passed in as data.
-/

namespace Chatbot

/-- A chat message, `{ role, content }` as in the source. -/
structure Message where
  role : String
  content : String
deriving DecidableEq, Repr

/-- Outcome of the provider call (`openai.chat.completions.create`):
either the generated text, or a thrown error carrying an optional
`error.code` string. -/
inductive ProviderResult where
  | ok (text : String)
  | err (code : Option String)
deriving DecidableEq, Repr

/-- First-match association-list lookup, the behaviour of `Map.get`. -/
def alookup {α β : Type} [DecidableEq α] : List (α × β) → α → Option β
  | [], _ => none
  | p :: t, k => if p.1 = k then some p.2 else alookup t k

/-- The conversation store: `map` is `conversationHistory` (key to array id),
`heap` gives each live array its contents, `nextId` allocates fresh ids. -/
structure Store where
  map : List (String × Nat)
  heap : List (Nat × List Message)
  nextId : Nat
deriving DecidableEq, Repr

/-- The store at server start: both maps empty. -/
def Store.empty : Store := ⟨[], [], 0⟩

/-- Transform in place the value stored under key `k` (the effect of mutating
a record/array retrieved from a JS `Map`, or of `Map.set` on an existing
key): every other entry is untouched and key positions are preserved. -/
def bumpValue {α β : Type} [DecidableEq α] (l : List (α × β)) (k : α) (f : β → β) :
    List (α × β) :=
  l.map fun p => if p.1 = k then (p.1, f p.2) else p

/-- Read an array from the heap (absent ids read as empty). -/
def heapGet (σ : Store) (i : Nat) : List Message :=
  (alookup σ.heap i).getD []

/-- `history.push(m)`: in-place append to the array with id `i`. -/
def heapPush (σ : Store) (i : Nat) (m : Message) : Store :=
  { σ with heap := bumpValue σ.heap i (fun h => h ++ [m]) }

/-- `conversationHistory.set(k, arr)`: a JS `Map.set` keeps the position of an
existing key and appends a new key at the end. -/
def mapSet (σ : Store) (k : String) (i : Nat) : Store :=
  { σ with map :=
      if (alookup σ.map k).isSome then
        bumpValue σ.map k (fun _ => i)
      else
        σ.map ++ [(k, i)] }

/-- `conversationHistory.delete(k)`. -/
def mapDelete (σ : Store) (k : String) : Store :=
  { σ with map := σ.map.filter (fun p => p.1 ≠ k) }

/-- `let history = conversationHistory.get(key) || []`: return the bound
array id, or allocate a fresh empty array (not yet bound in the map). -/
def getOrAlloc (σ : Store) (k : String) : Nat × Store :=
  match alookup σ.map k with
  | some i => (i, σ)
  | none => (σ.nextId,
      { σ with heap := (σ.nextId, ([] : List Message)) :: σ.heap,
               nextId := σ.nextId + 1 })

/-- The history currently stored for a key, as an external reader
(`GET /api/conversations`) sees it. -/
def storedHistory (σ : Store) (k : String) : List Message :=
  match alookup σ.map k with
  | some i => heapGet σ i
  | none => []

/-- The guard `!message || message.trim() === ''` on a present string: JS
`trim` strips whitespace from both ends, so the trimmed string is empty
exactly when every character of the message is whitespace. -/
def trimEmpty (msg : String) : Bool :=
  msg.data.all Char.isWhitespace

/-- JS `arr.slice(-n)` for `n > 0`: the last `min n length` elements. -/
def sliceLast {α : Type} (l : List α) (n : Nat) : List α :=
  l.drop (l.length - n)

/-- System preamble of the REST endpoint (`src/server.js` line 109). -/
def restSystemContent : String :=
  "You are a helpful, friendly, and knowledgeable AI assistant. You provide accurate, helpful responses while being conversational and engaging. You can discuss a wide range of topics including technology, science, literature, current events, and more. Always be respectful and professional."

/-- System preamble of the real-time handler (`src/server.js` line 241). -/
def rtSystemContent : String :=
  "You are a helpful AI assistant in a real-time chat environment. Be concise but helpful."

/-- `[{role: system, ...}, ...history.slice(-n)]`. -/
def buildMessages (sys : String) (history : List Message) (n : Nat) : List Message :=
  Message.mk "system" sys :: sliceLast history n

/-- The data carried across the provider-call suspension point: the id of the
local `history` array and the message list sent to the provider. -/
structure PendingCall where
  arrId : Nat
  messages : List Message
deriving DecidableEq, Repr

/-- Synchronous prefix of a chat handler (`src/server.js` lines 99-112 and
234-244): get-or-create the history array, push the user turn, build the
provider message list with the channel system preamble and limit `n`. -/
def chatPhase1 (σ : Store) (key msg sys : String) (n : Nat) : PendingCall × Store :=
  let q := getOrAlloc σ key
  let σ2 := heapPush q.2 q.1 (Message.mk "user" msg)
  (⟨q.1, buildMessages sys (heapGet σ2 q.1) n⟩, σ2)

/-- Synchronous suffix on provider success (`src/server.js` lines 122-126 and
253-255): push the assistant turn, then `conversationHistory.set`. -/
def chatPhase2 (σ : Store) (c : PendingCall) (key : String) (reply : String) : Store :=
  let σ1 := heapPush σ c.arrId (Message.mk "assistant" reply)
  mapSet σ1 key c.arrId

/-- `` `${userId}_${conversationId}` ``. -/
def historyKey (userId conversationId : String) : String :=
  userId ++ "_" ++ conversationId

/-- JSON body of a `POST /api/chat` response. -/
inductive ChatBody where
  | errBody (error : String)
  | okBody (response : String) (conversationId : String) (timestamp : String)
deriving DecidableEq, Repr

/-- Result of one `POST /api/chat` request: HTTP status, body, the store
afterwards, and whether the provider was invoked. -/
structure ChatResult where
  status : Nat
  body : ChatBody
  store : Store
  providerCalled : Bool
deriving DecidableEq, Repr

/-- `app.post(...)` handler (`src/server.js` lines 88-152).  `message = none`
models a missing/absent field (`!message`); `now` is the timestamp the
handler would generate. -/
def postChat (σ : Store) (message : Option String) (conversationId userId : String)
    (pr : ProviderResult) (now : String) : ChatResult :=
  match message with
  | none => ⟨400, ChatBody.errBody "Message is required", σ, false⟩
  | some msg =>
    if trimEmpty msg then ⟨400, ChatBody.errBody "Message is required", σ, false⟩
    else
      let key := historyKey userId conversationId
      let p := chatPhase1 σ key msg restSystemContent 10
      match pr with
      | ProviderResult.ok reply =>
          ⟨200, ChatBody.okBody reply conversationId now,
            chatPhase2 p.2 p.1 key reply, true⟩
      | ProviderResult.err code =>
          if code = some "insufficient_quota" then
            ⟨429, ChatBody.errBody "API quota exceeded. Please try again later.", p.2, true⟩
          else if code = some "rate_limit_exceeded" then
            ⟨429, ChatBody.errBody "Rate limit exceeded. Please wait a moment.", p.2, true⟩
          else
            ⟨500, ChatBody.errBody "Internal server error. Please try again.", p.2, true⟩

/-- JSON body of `GET /api/conversations/:userId/:conversationId`. -/
structure ConversationView where
  conversationId : String
  messages : List Message
  messageCount : Nat
deriving DecidableEq, Repr

/-- `app.get(...)` handler (`src/server.js` lines 165-175). -/
def getConversation (σ : Store) (userId conversationId : String) : ConversationView :=
  let h := storedHistory σ (historyKey userId conversationId)
  ⟨conversationId, h, h.length⟩

/-- Result of `DELETE /api/conversations/...`: status, body message, store. -/
structure DeleteResult where
  status : Nat
  message : String
  store : Store
deriving DecidableEq, Repr

/-- `app.delete(...)` handler (`src/server.js` lines 178-185): unconditionally
deletes the key and answers success. -/
def deleteConversation (σ : Store) (userId conversationId : String) : DeleteResult :=
  ⟨200, "Conversation cleared successfully",
    mapDelete σ (historyKey userId conversationId)⟩

/-- One Session Registry record (`activeConnections` values). -/
structure Connection where
  socketId : String
  connectedAt : Nat
  userId : Option String
  username : Option String
deriving DecidableEq, Repr

/-- `socket.on('identify')` handler (`src/server.js` lines 199-207): if the
connection is still registered, bind `userId`/`username` on its record and
re-`set` it under the same key; otherwise do nothing. -/
def identify (conns : List (String × Connection)) (sid uid uname : String) :
    List (String × Connection) :=
  match alookup conns sid with
  | none => conns
  | some _ =>
      bumpValue conns sid
        (fun c => { c with userId := some uid, username := some uname })

/-- An outbound socket event: `io.emit('new-message', ...)` broadcast to all
connections, or `socket.emit('error', ...)` targeted at the sender. -/
inductive Emit where
  | newMessage (message : String) (sender : String) (userId : Option String)
      (username : Option String) (timestamp : String) (conversationId : String)
  | errorToSender (socketId : String) (message : String)
deriving DecidableEq, Repr

/-- Result of one `send-message` socket event: emitted events in order, the
store afterwards, and whether the provider was invoked. -/
structure SendResult where
  emits : List Emit
  store : Store
  providerCalled : Bool
deriving DecidableEq, Repr

/-- `socket.on('send-message')` handler (`src/server.js` lines 219-269): the
raw user message is broadcast first, then the history is updated and the
provider called; on success the reply is broadcast with `sender: 'ai'`, on
failure an error event goes to the originating socket only. -/
def sendMessage (σ : Store) (sid msg userId conversationId username : String)
    (pr : ProviderResult) (now : String) : SendResult :=
  let userEmit := Emit.newMessage msg "user" (some userId) (some username) now conversationId
  let key := historyKey userId conversationId
  let p := chatPhase1 σ key msg rtSystemContent 8
  match pr with
  | ProviderResult.ok reply =>
      ⟨[userEmit, Emit.newMessage reply "ai" none none now conversationId],
        chatPhase2 p.2 p.1 key reply, true⟩
  | ProviderResult.err _ =>
      ⟨[userEmit, Emit.errorToSender sid "Failed to process message"], p.2, true⟩

/-- Outcome of two requests on the same key interleaved at the provider-call
suspension point. -/
structure InterleavedOutcome where
  windowB : List Message
  storeAfter : Store
deriving DecidableEq, Repr

/-- The event-loop schedule A-phase1, B-phase1, A-phase2, B-phase2 on one
conversation key: request B runs its synchronous prefix while request A is
awaiting the provider.  Nothing in the source prevents this schedule (the
provider call is the only suspension point and the store is not locked
per key). -/
def interleavedChat (σ : Store) (key mA mB rA rB : String) : InterleavedOutcome :=
  let a1 := chatPhase1 σ key mA restSystemContent 10
  let b1 := chatPhase1 a1.2 key mB restSystemContent 10
  let σ3 := chatPhase2 b1.2 a1.1 key rA
  let σ4 := chatPhase2 σ3 b1.1 key rB
  ⟨b1.1.messages, σ4⟩

/-- The key currently stores history `h`: either unbound (reading as `[]`),
or bound to a live heap array holding `h`. -/
def HasHistory (σ : Store) (k : String) (h : List Message) : Prop :=
  (alookup σ.map k = none ∧ h = []) ∨
    ∃ i, alookup σ.map k = some i ∧ alookup σ.heap i = some h

/-! ### Association-list lemmas -/

theorem alookup_bumpValue_self {α β : Type} [DecidableEq α]
    (l : List (α × β)) (k : α) (f : β → β) :
    alookup (bumpValue l k f) k = (alookup l k).map f := by
  induction l with
  | nil => rfl
  | cons p t ih =>
    by_cases hp : p.1 = k
    · simp [bumpValue, alookup, hp]
    · simpa [bumpValue, alookup, hp] using ih

theorem alookup_bumpValue_ne {α β : Type} [DecidableEq α]
    (l : List (α × β)) (k j : α) (f : β → β) (hj : j ≠ k) :
    alookup (bumpValue l k f) j = alookup l j := by
  induction l with
  | nil => rfl
  | cons p t ih =>
    by_cases hp : p.1 = k
    · have hpj : p.1 ≠ j := by rw [hp]; exact Ne.symm hj
      show alookup ((if p.1 = k then (p.1, f p.2) else p) :: bumpValue t k f) j = _
      rw [if_pos hp]
      simp only [alookup, if_neg hpj, ih]
    · show alookup ((if p.1 = k then (p.1, f p.2) else p) :: bumpValue t k f) j = _
      rw [if_neg hp]
      by_cases hq : p.1 = j
      · simp only [alookup, if_pos hq]
      · simp only [alookup, if_neg hq, ih]

theorem alookup_append_of_none {α β : Type} [DecidableEq α]
    (l₁ l₂ : List (α × β)) (k : α) (h : alookup l₁ k = none) :
    alookup (l₁ ++ l₂) k = alookup l₂ k := by
  induction l₁ with
  | nil => rfl
  | cons p t ih =>
    by_cases hp : p.1 = k
    · simp [alookup, hp] at h
    · simp [alookup, hp] at h ⊢
      exact ih h

theorem alookup_filter_self {α β : Type} [DecidableEq α]
    (l : List (α × β)) (k : α) :
    alookup (l.filter fun p => p.1 ≠ k) k = none := by
  induction l with
  | nil => rfl
  | cons p t ih =>
    by_cases hp : p.1 = k
    · simpa [List.filter, hp] using ih
    · simpa [List.filter, alookup, hp] using ih

theorem alookup_filter_ne {α β : Type} [DecidableEq α]
    (l : List (α × β)) (k j : α) (hj : j ≠ k) :
    alookup (l.filter fun p => p.1 ≠ k) j = alookup l j := by
  induction l with
  | nil => rfl
  | cons p t ih =>
    rw [List.filter_cons]
    by_cases hp : p.1 = k
    · have hpj : p.1 ≠ j := by rw [hp]; exact Ne.symm hj
      rw [if_neg (by simp [hp])]
      simp only [ih, alookup, if_neg hpj]
    · rw [if_pos (by simpa using hp)]
      by_cases hq : p.1 = j
      · simp only [alookup, if_pos hq]
      · simp only [alookup, if_neg hq, ih]

/-! ### Store-operation lemmas -/

theorem heapPush_map (σ : Store) (i : Nat) (m : Message) :
    (heapPush σ i m).map = σ.map := rfl

theorem heapPush_heap_self (σ : Store) (i : Nat) (m : Message) (l : List Message)
    (h : alookup σ.heap i = some l) :
    alookup (heapPush σ i m).heap i = some (l ++ [m]) := by
  simp [heapPush, alookup_bumpValue_self, h]

theorem mapSet_heap (σ : Store) (k : String) (i : Nat) :
    (mapSet σ k i).heap = σ.heap := rfl

theorem alookup_mapSet_self (σ : Store) (k : String) (i : Nat) :
    alookup (mapSet σ k i).map k = some i := by
  unfold mapSet
  cases hv : alookup σ.map k with
  | none =>
    simp [hv, alookup_append_of_none _ _ _ hv, alookup]
  | some j =>
    simp [hv, alookup_bumpValue_self]

theorem getOrAlloc_hit (σ : Store) (k : String) (i : Nat)
    (h : alookup σ.map k = some i) : getOrAlloc σ k = (i, σ) := by
  simp [getOrAlloc, h]

theorem getOrAlloc_miss (σ : Store) (k : String)
    (h : alookup σ.map k = none) :
    getOrAlloc σ k = (σ.nextId,
      { σ with heap := (σ.nextId, ([] : List Message)) :: σ.heap,
               nextId := σ.nextId + 1 }) := by
  simp [getOrAlloc, h]

/-! ### Phase lemmas -/

theorem sliceLast_suffix {α : Type} (l : List α) (n : Nat) :
    sliceLast l n <:+ l :=
  List.drop_suffix _ _

theorem sliceLast_length_le {α : Type} (l : List α) (n : Nat) :
    (sliceLast l n).length ≤ n := by
  simp only [sliceLast, List.length_drop]
  omega

theorem chatPhase1_spec (σ : Store) (key msg sys : String) (n : Nat)
    (h : List Message) (hh : HasHistory σ key h) :
    alookup (chatPhase1 σ key msg sys n).2.heap (chatPhase1 σ key msg sys n).1.arrId
        = some (h ++ [Message.mk "user" msg])
    ∧ (chatPhase1 σ key msg sys n).2.map = σ.map
    ∧ (chatPhase1 σ key msg sys n).1.messages
        = Message.mk "system" sys :: sliceLast (h ++ [Message.mk "user" msg]) n
    ∧ (alookup σ.map key = some (chatPhase1 σ key msg sys n).1.arrId
        ∨ alookup σ.map key = none) := by
  rcases hh with ⟨hm, rfl⟩ | ⟨i, hm, hheap⟩
  · have hq := getOrAlloc_miss σ key hm
    have hl : alookup ((σ.nextId, ([] : List Message)) :: σ.heap) σ.nextId
        = some [] := by simp [alookup]
    refine ⟨?_, ?_, ?_, Or.inr hm⟩
    · simp [chatPhase1, hq, heapPush, alookup_bumpValue_self, hl]
    · simp [chatPhase1, hq, heapPush]
    · simp [chatPhase1, hq, buildMessages, heapGet, heapPush,
        alookup_bumpValue_self, hl]
  · have hq := getOrAlloc_hit σ key i hm
    refine ⟨?_, ?_, ?_, ?_⟩
    · simp [chatPhase1, hq, heapPush, alookup_bumpValue_self, hheap]
    · simp [chatPhase1, hq, heapPush]
    · simp [chatPhase1, hq, buildMessages, heapGet, heapPush,
        alookup_bumpValue_self, hheap]
    · exact Or.inl (by simp [chatPhase1, hq, hm])

theorem chatPhase1_stored (σ : Store) (key msg sys : String) (n : Nat)
    (h : List Message) (hh : HasHistory σ key h) :
    storedHistory (chatPhase1 σ key msg sys n).2 key
      = if (alookup σ.map key).isSome then h ++ [Message.mk "user" msg] else [] := by
  obtain ⟨hheap, hmap, _, hcase⟩ := chatPhase1_spec σ key msg sys n h hh
  rcases hcase with hi | hnone
  · simp [storedHistory, hmap, hi, heapGet, hheap]
  · simp [storedHistory, hmap, hnone]

theorem chatPhase2_heap_self (σ : Store) (c : PendingCall) (key reply : String)
    (l : List Message) (hc : alookup σ.heap c.arrId = some l) :
    alookup (chatPhase2 σ c key reply).heap c.arrId
      = some (l ++ [Message.mk "assistant" reply]) := by
  simp [chatPhase2, mapSet_heap, heapPush_heap_self σ c.arrId _ l hc]

theorem chatPhase2_map_self (σ : Store) (c : PendingCall) (key reply : String) :
    alookup (chatPhase2 σ c key reply).map key = some c.arrId := by
  simp [chatPhase2, alookup_mapSet_self]

theorem chatPhase2_stored (σ : Store) (c : PendingCall) (key reply : String)
    (l : List Message) (hc : alookup σ.heap c.arrId = some l) :
    storedHistory (chatPhase2 σ c key reply) key
      = l ++ [Message.mk "assistant" reply] := by
  have h1 := chatPhase2_map_self σ c key reply
  have h2 := chatPhase2_heap_self σ c key reply l hc
  simp [storedHistory, h1, heapGet, h2]

/-! ### Handler-unfolding lemmas -/

theorem postChat_ok_eq (σ : Store) (msg cid uid r now : String)
    (hm : trimEmpty msg = false) :
    postChat σ (some msg) cid uid (ProviderResult.ok r) now
      = ⟨200, ChatBody.okBody r cid now,
          chatPhase2 (chatPhase1 σ (historyKey uid cid) msg restSystemContent 10).2
            (chatPhase1 σ (historyKey uid cid) msg restSystemContent 10).1
            (historyKey uid cid) r, true⟩ := by
  simp [postChat, hm]

theorem postChat_err_store (σ : Store) (msg cid uid now : String)
    (c : Option String) (hm : trimEmpty msg = false) :
    (postChat σ (some msg) cid uid (ProviderResult.err c) now).store
      = (chatPhase1 σ (historyKey uid cid) msg restSystemContent 10).2 := by
  by_cases h1 : c = some "insufficient_quota"
  · simp [postChat, hm, h1]
  · by_cases h2 : c = some "rate_limit_exceeded"
    · simp [postChat, hm, h1, h2]
    · simp [postChat, hm, h1, h2]

theorem sendMessage_ok_eq (σ : Store) (sid msg uid cid uname r now : String) :
    sendMessage σ sid msg uid cid uname (ProviderResult.ok r) now
      = ⟨[Emit.newMessage msg "user" (some uid) (some uname) now cid,
           Emit.newMessage r "ai" none none now cid],
          chatPhase2 (chatPhase1 σ (historyKey uid cid) msg rtSystemContent 8).2
            (chatPhase1 σ (historyKey uid cid) msg rtSystemContent 8).1
            (historyKey uid cid) r, true⟩ := by
  simp [sendMessage]

theorem postChat_ok_stored (σ : Store) (uid cid msg r now : String)
    (h : List Message) (hh : HasHistory σ (historyKey uid cid) h)
    (hm : trimEmpty msg = false) :
    storedHistory
        (postChat σ (some msg) cid uid (ProviderResult.ok r) now).store
        (historyKey uid cid)
      = h ++ [Message.mk "user" msg, Message.mk "assistant" r] := by
  have heq := postChat_ok_eq σ msg cid uid r now hm
  obtain ⟨hheap, -, -, -⟩ :=
    chatPhase1_spec σ (historyKey uid cid) msg restSystemContent 10 h hh
  have hst := chatPhase2_stored _ _ (historyKey uid cid) r _ hheap
  rw [heq]
  simpa using hst

/-! ### Claim theorems -/

/-- Claim C1, as stated, is false at a concrete input: on a Conversation Key
with no prior history, a provider failure leaves the stored history empty —
zero new messages, not the claimed one — because the freshly created local
history array is never bound into the map (`conversationHistory.set` is only
reached on success). -/
theorem C1_counterexample :
    (postChat Store.empty (some "hi") "c" "u" (ProviderResult.err none) "t0").status = 500
  ∧ storedHistory Store.empty (historyKey "u" "c") = []
  ∧ storedHistory
      (postChat Store.empty (some "hi") "c" "u" (ProviderResult.err none) "t0").store
      (historyKey "u" "c") = []
  ∧ ¬ (storedHistory
        (postChat Store.empty (some "hi") "c" "u" (ProviderResult.err none) "t0").store
        (historyKey "u" "c")).length
      = (storedHistory Store.empty (historyKey "u" "c")).length + 1 := by
  refine ⟨rfl, rfl, by decide, by decide⟩

/-- Claim C1 (amended): on the point-to-point path a provider failure never
appends an assistant turn; when the Conversation Key already had a stored
history the stored history afterwards is exactly the prior history plus the
already-appended user turn (one new message), but when the key had no stored
history the stored history stays empty (the user turn is not persisted). -/
theorem C1_provider_failure (σ : Store) (msg cid uid now : String)
    (c : Option String) (h : List Message)
    (hh : HasHistory σ (historyKey uid cid) h) (hm : trimEmpty msg = false) :
    storedHistory
        (postChat σ (some msg) cid uid (ProviderResult.err c) now).store
        (historyKey uid cid)
      = if (alookup σ.map (historyKey uid cid)).isSome
          then h ++ [Message.mk "user" msg] else [] := by
  rw [postChat_err_store σ msg cid uid now c hm]
  exact chatPhase1_stored σ _ msg restSystemContent 10 h hh

/-- Claim C1 witness: with history `[]` stored under the key, a provider
failure leaves exactly the user turn. -/
theorem C1_provider_failure_witness :
    storedHistory
        (postChat (Store.mk [("u_c", 0)] [(0, [])] 1) (some "hi") "c" "u"
          (ProviderResult.err none) "t0").store
        (historyKey "u" "c")
      = [Message.mk "user" "hi"] :=
  C1_provider_failure (Store.mk [("u_c", 0)] [(0, [])] 1) "hi" "c" "u" "t0" none []
    (Or.inr ⟨0, by decide, by decide⟩) (by decide)

/-- Claim C2: on each channel the message list sent to the provider is
exactly one leading system message followed by the last at-most-N messages
of the history (N = 10 on the request/response channel, 8 on the real-time
channel), in history order (a suffix of the history), for every prior
history including the empty one. -/
theorem C2_context_window (σ : Store) (key msg : String) (h : List Message)
    (hh : HasHistory σ key h) :
    ((chatPhase1 σ key msg restSystemContent 10).1.messages
        = Message.mk "system" restSystemContent
            :: sliceLast (h ++ [Message.mk "user" msg]) 10
      ∧ sliceLast (h ++ [Message.mk "user" msg]) 10 <:+ h ++ [Message.mk "user" msg]
      ∧ (sliceLast (h ++ [Message.mk "user" msg]) 10).length ≤ 10)
  ∧ ((chatPhase1 σ key msg rtSystemContent 8).1.messages
        = Message.mk "system" rtSystemContent
            :: sliceLast (h ++ [Message.mk "user" msg]) 8
      ∧ sliceLast (h ++ [Message.mk "user" msg]) 8 <:+ h ++ [Message.mk "user" msg]
      ∧ (sliceLast (h ++ [Message.mk "user" msg]) 8).length ≤ 8) := by
  obtain ⟨-, -, hw10, -⟩ := chatPhase1_spec σ key msg restSystemContent 10 h hh
  obtain ⟨-, -, hw8, -⟩ := chatPhase1_spec σ key msg rtSystemContent 8 h hh
  exact ⟨⟨hw10, sliceLast_suffix _ _, sliceLast_length_le _ _⟩,
         ⟨hw8, sliceLast_suffix _ _, sliceLast_length_le _ _⟩⟩

/-- Claim C2 witness: on an empty history the provider receives exactly the
system message and the single user turn. -/
theorem C2_context_window_witness :
    (chatPhase1 Store.empty "u_c" "hi" restSystemContent 10).1.messages
      = [Message.mk "system" restSystemContent, Message.mk "user" "hi"] :=
  (C2_context_window Store.empty "u_c" "hi" [] (Or.inl ⟨rfl, rfl⟩)).1.1

/-- Claim C3: `POST /api/chat` answers 400 on a missing or empty message,
429 when the provider fails with the quota or rate-limit classification,
500 on any other provider failure, and on success a body carrying the reply
text, the conversationId and the timestamp. -/
theorem C3_status_codes (σ : Store) (cid uid now msg r : String)
    (c : Option String) (hm : trimEmpty msg = false) :
    (postChat σ none cid uid (ProviderResult.ok r) now).status = 400
  ∧ (∀ m : String, trimEmpty m = true →
      (postChat σ (some m) cid uid (ProviderResult.ok r) now).status = 400)
  ∧ (postChat σ (some msg) cid uid
        (ProviderResult.err (some "insufficient_quota")) now).status = 429
  ∧ (postChat σ (some msg) cid uid
        (ProviderResult.err (some "rate_limit_exceeded")) now).status = 429
  ∧ (c ≠ some "insufficient_quota" → c ≠ some "rate_limit_exceeded" →
      (postChat σ (some msg) cid uid (ProviderResult.err c) now).status = 500)
  ∧ (postChat σ (some msg) cid uid (ProviderResult.ok r) now).status = 200
  ∧ (postChat σ (some msg) cid uid (ProviderResult.ok r) now).body
      = ChatBody.okBody r cid now := by
  refine ⟨rfl, ?_, ?_, ?_, ?_, ?_, ?_⟩
  · intro m hmt
    simp [postChat, hmt]
  · simp [postChat, hm]
  · simp [postChat, hm]
  · intro h1 h2
    simp [postChat, hm, h1, h2]
  · simp [postChat, hm]
  · simp [postChat, hm]

/-- Claim C3 witness: the quota failure of a concrete request is answered
with status 429, and the concrete success body carries reply, id and
timestamp. -/
theorem C3_status_codes_witness :
    (postChat Store.empty (some "hi") "c" "u"
        (ProviderResult.err (some "insufficient_quota")) "t0").status = 429
  ∧ (postChat Store.empty (some "hi") "c" "u"
        (ProviderResult.err none) "t0").status = 500
  ∧ (postChat Store.empty (some "hi") "c" "u"
        (ProviderResult.ok "hello") "t0").body = ChatBody.okBody "hello" "c" "t0" :=
  ⟨(C3_status_codes Store.empty "c" "u" "t0" "hi" "hello" (some "insufficient_quota")
      (by decide)).2.2.1,
   (C3_status_codes Store.empty "c" "u" "t0" "hi" "hello" none (by decide)).2.2.2.2.1
      (by decide) (by decide),
   (C3_status_codes Store.empty "c" "u" "t0" "hi" "hello" none (by decide)).2.2.2.2.2.2⟩

/-- Sender tag carried by an outbound event (none for the targeted error
event). -/
def emitSender : Emit → Option String
  | Emit.newMessage _ s _ _ _ _ => some s
  | Emit.errorToSender _ _ => none

/-- Claim C4, as stated, is false at a concrete input: the `send-message`
handler performs no validation, so an empty inbound real-time message is
broadcast as a user message, the user turn is appended to the stored
history, and the provider is called. -/
theorem C4_counterexample :
    (sendMessage (Store.mk [("u_c", 0)] [(0, [])] 1) "s1" "" "u" "c" "alice"
        (ProviderResult.ok "reply") "t0").emits.head?
      = some (Emit.newMessage "" "user" (some "u") (some "alice") "t0" "c")
  ∧ (sendMessage (Store.mk [("u_c", 0)] [(0, [])] 1) "s1" "" "u" "c" "alice"
        (ProviderResult.ok "reply") "t0").providerCalled = true
  ∧ storedHistory
      (sendMessage (Store.mk [("u_c", 0)] [(0, [])] 1) "s1" "" "u" "c" "alice"
        (ProviderResult.ok "reply") "t0").store (historyKey "u" "c")
      = [Message.mk "user" "", Message.mk "assistant" "reply"] := by
  refine ⟨rfl, rfl, by decide⟩

/-- Claim C4 (amended): the real-time path does not validate inbound
messages; an empty message is broadcast to all clients as a user message, a
provider call is made, and (on provider success) the empty user turn and the
assistant reply are appended to the stored history. -/
theorem C4_no_validation (σ : Store) (sid uid cid uname now r : String)
    (h : List Message) (hh : HasHistory σ (historyKey uid cid) h) :
    (sendMessage σ sid "" uid cid uname (ProviderResult.ok r) now).emits.head?
        = some (Emit.newMessage "" "user" (some uid) (some uname) now cid)
  ∧ (sendMessage σ sid "" uid cid uname (ProviderResult.ok r) now).providerCalled
        = true
  ∧ storedHistory
        (sendMessage σ sid "" uid cid uname (ProviderResult.ok r) now).store
        (historyKey uid cid)
      = h ++ [Message.mk "user" "", Message.mk "assistant" r] := by
  have heq := sendMessage_ok_eq σ sid "" uid cid uname r now
  obtain ⟨hheap, -, -, -⟩ :=
    chatPhase1_spec σ (historyKey uid cid) "" rtSystemContent 8 h hh
  have hst := chatPhase2_stored _ _ (historyKey uid cid) r _ hheap
  refine ⟨by rw [heq]; rfl, by rw [heq], ?_⟩
  rw [heq]
  simpa using hst

/-- Claim C4 amended-claim witness: concrete empty real-time message on an
existing empty history. -/
theorem C4_no_validation_witness :
    storedHistory
        (sendMessage (Store.mk [("u_c", 0)] [(0, [])] 1) "s1" "" "u" "c" "alice"
          (ProviderResult.ok "r") "t0").store (historyKey "u" "c")
      = [Message.mk "user" "", Message.mk "assistant" "r"] :=
  (C4_no_validation (Store.mk [("u_c", 0)] [(0, [])] 1) "s1" "u" "c" "alice" "t0" "r" []
    (Or.inr ⟨0, by decide, by decide⟩)).2.2

/-- Claim C5, as stated, is false at a concrete input: the assistant reply
broadcast carries `sender: 'ai'`, not `sender: 'assistant'` — no emitted
event of the concrete successful exchange is tagged `assistant`. -/
theorem C5_counterexample :
    (sendMessage Store.empty "s1" "hi" "u" "c" "alice"
        (ProviderResult.ok "hello") "t0").emits
      = [Emit.newMessage "hi" "user" (some "u") (some "alice") "t0" "c",
         Emit.newMessage "hello" "ai" none none "t0" "c"]
  ∧ (sendMessage Store.empty "s1" "hi" "u" "c" "alice"
        (ProviderResult.ok "hello") "t0").emits.map emitSender
      = [some "user", some "ai"]
  ∧ ("ai" : String) ≠ "assistant" := by
  refine ⟨rfl, rfl, by decide⟩

/-- Claim C5 (amended): on the real-time path every successful provider call
broadcasts the assistant reply to all connections as a `new-message` event
tagged `sender: 'ai'` (the user echo precedes it, tagged `sender: 'user'`). -/
theorem C5_reply_broadcast (σ : Store) (sid msg uid cid uname r now : String) :
    (sendMessage σ sid msg uid cid uname (ProviderResult.ok r) now).emits
      = [Emit.newMessage msg "user" (some uid) (some uname) now cid,
         Emit.newMessage r "ai" none none now cid] := by
  rw [sendMessage_ok_eq]

/-- Claim C6: a successful exchange appends the user turn then the assistant
turn at the end of the stored history, in order, and the conversation
endpoint reports them with the matching message count; on a fresh key the
count is 2. -/
theorem C6_append_then_get (σ : Store) (uid cid msg r now : String)
    (h : List Message) (hh : HasHistory σ (historyKey uid cid) h)
    (hm : trimEmpty msg = false) :
    storedHistory
        (postChat σ (some msg) cid uid (ProviderResult.ok r) now).store
        (historyKey uid cid)
      = h ++ [Message.mk "user" msg, Message.mk "assistant" r]
  ∧ getConversation
        (postChat σ (some msg) cid uid (ProviderResult.ok r) now).store uid cid
      = ⟨cid, h ++ [Message.mk "user" msg, Message.mk "assistant" r],
          (h ++ [Message.mk "user" msg, Message.mk "assistant" r]).length⟩ := by
  have hstored := postChat_ok_stored σ uid cid msg r now h hh hm
  exact ⟨hstored, by simp [getConversation, hstored]⟩

/-- Claim C6 witness: the scenario of the spec — `hi` in, `hello` out, on a
fresh key the endpoint reports both messages in order and count 2. -/
theorem C6_append_then_get_witness :
    getConversation
        (postChat Store.empty (some "hi") "c" "u" (ProviderResult.ok "hello") "t0").store
        "u" "c"
      = ⟨"c", [Message.mk "user" "hi", Message.mk "assistant" "hello"], 2⟩ :=
  (C6_append_then_get Store.empty "u" "c" "hi" "hello" "t0" []
    (Or.inl ⟨rfl, rfl⟩) (by decide)).2

/-- Claim C7: deleting a conversation always succeeds (status 200 and the
success body, for any store, including a key with no history); afterwards
the key reads as the empty history, and a subsequent successful exchange
starts a fresh history holding exactly the two new turns. -/
theorem C7_clear_then_get (σ : Store) (uid cid msg r now : String)
    (hm : trimEmpty msg = false) :
    (deleteConversation σ uid cid).status = 200
  ∧ (deleteConversation σ uid cid).message = "Conversation cleared successfully"
  ∧ storedHistory (deleteConversation σ uid cid).store (historyKey uid cid) = []
  ∧ getConversation (deleteConversation σ uid cid).store uid cid = ⟨cid, [], 0⟩
  ∧ storedHistory
        (postChat (deleteConversation σ uid cid).store (some msg) cid uid
          (ProviderResult.ok r) now).store (historyKey uid cid)
      = [Message.mk "user" msg, Message.mk "assistant" r] := by
  have hnone : alookup (deleteConversation σ uid cid).store.map (historyKey uid cid)
      = none := alookup_filter_self σ.map (historyKey uid cid)
  have hempty : storedHistory (deleteConversation σ uid cid).store (historyKey uid cid)
      = [] := by simp [storedHistory, hnone]
  have hfresh := postChat_ok_stored (deleteConversation σ uid cid).store uid cid
    msg r now [] (Or.inl ⟨hnone, rfl⟩) hm
  exact ⟨rfl, rfl, hempty, by simp [getConversation, hempty], by simpa using hfresh⟩

/-- Claim C7 witness: deleting an absent key on the empty store succeeds and
the follow-up exchange stores exactly the fresh pair. -/
theorem C7_clear_then_get_witness :
    (deleteConversation Store.empty "u" "c").status = 200
  ∧ storedHistory
        (postChat (deleteConversation Store.empty "u" "c").store (some "hi") "c" "u"
          (ProviderResult.ok "hello") "t0").store (historyKey "u" "c")
      = [Message.mk "user" "hi", Message.mk "assistant" "hello"] :=
  ⟨(C7_clear_then_get Store.empty "u" "c" "hi" "hello" "t0" (by decide)).1,
   (C7_clear_then_get Store.empty "u" "c" "hi" "hello" "t0" (by decide)).2.2.2.2⟩

/-- Claim C8: `identify` on a connection id that is absent from the Session
Registry throws no error (it is a total function) and leaves the connection
map unchanged; on a present id it binds `userId` and `username` on that
record, leaves every other key untouched, and neither creates nor removes
any connection (key presence is preserved everywhere). -/
theorem C8_identify_safe (conns : List (String × Connection))
    (sid uid uname : String) :
    (alookup conns sid = none → identify conns sid uid uname = conns)
  ∧ (∀ c : Connection, alookup conns sid = some c →
        alookup (identify conns sid uid uname) sid
            = some { c with userId := some uid, username := some uname }
      ∧ (∀ k : String, k ≠ sid →
            alookup (identify conns sid uid uname) k = alookup conns k)
      ∧ (∀ k : String, (alookup (identify conns sid uid uname) k).isSome
            = (alookup conns k).isSome)) := by
  constructor
  · intro hnone
    simp [identify, hnone]
  · intro c hc
    have hid : identify conns sid uid uname
        = bumpValue conns sid
            (fun d => { d with userId := some uid, username := some uname }) := by
      simp [identify, hc]
    refine ⟨?_, ?_, ?_⟩
    · rw [hid, alookup_bumpValue_self, hc]
      rfl
    · intro k hk
      rw [hid, alookup_bumpValue_ne _ _ _ _ hk]
    · intro k
      by_cases hk : k = sid
      · subst hk
        rw [hid, alookup_bumpValue_self, hc]
        rfl
      · rw [hid, alookup_bumpValue_ne _ _ _ _ hk]

/-- Claim C8 witness: identifying a removed id leaves a concrete registry
unchanged; identifying a present id binds the identity on that record. -/
theorem C8_identify_safe_witness :
    identify [("s1", Connection.mk "s1" 0 none none)] "s2" "u" "alice"
        = [("s1", Connection.mk "s1" 0 none none)]
  ∧ alookup (identify [("s1", Connection.mk "s1" 0 none none)] "s1" "u" "alice") "s1"
        = some (Connection.mk "s1" 0 (some "u") (some "alice")) :=
  ⟨(C8_identify_safe [("s1", Connection.mk "s1" 0 none none)] "s2" "u" "alice").1
      (by decide),
   ((C8_identify_safe [("s1", Connection.mk "s1" 0 none none)] "s1" "u" "alice").2
      (Connection.mk "s1" 0 none none) (by decide)).1⟩

/-- Claim C9, as stated, is false at a concrete input: nothing serializes two
messages on one Conversation Key, so in the legal event-loop schedule where
message B runs its synchronous prefix while message A awaits the provider,
B's context window contains A's user turn without A's assistant turn — the
partial append the claim says can never be observed — and the final history
interleaves both user turns before both assistant turns. -/
theorem C9_counterexample :
    (interleavedChat (Store.mk [("u_c", 0)] [(0, [])] 1) "u_c" "mA" "mB" "rA" "rB").windowB
      = [Message.mk "system" restSystemContent,
         Message.mk "user" "mA", Message.mk "user" "mB"]
  ∧ Message.mk "assistant" "rA" ∉
      (interleavedChat (Store.mk [("u_c", 0)] [(0, [])] 1) "u_c" "mA" "mB" "rA" "rB").windowB
  ∧ storedHistory
      (interleavedChat (Store.mk [("u_c", 0)] [(0, [])] 1) "u_c" "mA" "mB" "rA" "rB").storeAfter
      "u_c"
      = [Message.mk "user" "mA", Message.mk "user" "mB",
         Message.mk "assistant" "rA", Message.mk "assistant" "rB"] := by
  refine ⟨rfl, by decide, by decide⟩

/-- Claim C9 (amended): the implementation does not serialize concurrent
messages on a Conversation Key: for any stored history, in the schedule
where the second message's append runs during the first's provider call, the
second's context window is built from the history holding both user turns
and no assistant turn of the first message, and the final stored history
places both user turns before both assistant turns. -/
theorem C9_interleaving (σ : Store) (key mA mB rA rB : String) (i : Nat)
    (h : List Message) (hm : alookup σ.map key = some i)
    (hheap : alookup σ.heap i = some h) :
    (interleavedChat σ key mA mB rA rB).windowB
      = Message.mk "system" restSystemContent
          :: sliceLast (h ++ [Message.mk "user" mA, Message.mk "user" mB]) 10
  ∧ storedHistory (interleavedChat σ key mA mB rA rB).storeAfter key
      = h ++ [Message.mk "user" mA, Message.mk "user" mB,
              Message.mk "assistant" rA, Message.mk "assistant" rB] := by
  have hhA : HasHistory σ key h := Or.inr ⟨i, hm, hheap⟩
  obtain ⟨heapA, mapA, -, caseA⟩ := chatPhase1_spec σ key mA restSystemContent 10 h hhA
  have harrA : (chatPhase1 σ key mA restSystemContent 10).1.arrId = i := by
    rcases caseA with hA | hA
    · exact (Option.some.injEq _ _ ▸ (hm ▸ hA : some i = some _)).symm
    · rw [hm] at hA
      exact absurd hA (by simp)
  have hhB : HasHistory (chatPhase1 σ key mA restSystemContent 10).2 key
      (h ++ [Message.mk "user" mA]) := by
    refine Or.inr ⟨i, ?_, ?_⟩
    · rw [mapA]
      exact hm
    · rw [← harrA]
      exact heapA
  obtain ⟨heapB, mapB, winB, caseB⟩ := chatPhase1_spec
    (chatPhase1 σ key mA restSystemContent 10).2 key mB restSystemContent 10
    (h ++ [Message.mk "user" mA]) hhB
  have harrB : (chatPhase1 (chatPhase1 σ key mA restSystemContent 10).2 key mB
      restSystemContent 10).1.arrId = i := by
    rcases caseB with hB | hB
    · rw [mapA, hm] at hB
      exact (Option.some.injEq _ _ ▸ hB).symm
    · rw [mapA, hm] at hB
      exact absurd hB (by simp)
  constructor
  · show (chatPhase1 (chatPhase1 σ key mA restSystemContent 10).2 key mB
        restSystemContent 10).1.messages = _
    rw [winB]
    simp
  · show storedHistory
        (chatPhase2
          (chatPhase2
            (chatPhase1 (chatPhase1 σ key mA restSystemContent 10).2 key mB
              restSystemContent 10).2
            (chatPhase1 σ key mA restSystemContent 10).1 key rA)
          (chatPhase1 (chatPhase1 σ key mA restSystemContent 10).2 key mB
            restSystemContent 10).1 key rB) key = _
    have hheapB : alookup (chatPhase1 (chatPhase1 σ key mA restSystemContent 10).2
        key mB restSystemContent 10).2.heap
        (chatPhase1 σ key mA restSystemContent 10).1.arrId
        = some (h ++ [Message.mk "user" mA] ++ [Message.mk "user" mB]) := by
      rw [harrA, ← harrB]
      exact heapB
    have heap3 := chatPhase2_heap_self
      (chatPhase1 (chatPhase1 σ key mA restSystemContent 10).2 key mB
        restSystemContent 10).2
      (chatPhase1 σ key mA restSystemContent 10).1 key rA _ hheapB
    rw [harrA, ← harrB] at heap3
    have hfinal := chatPhase2_stored
      (chatPhase2
        (chatPhase1 (chatPhase1 σ key mA restSystemContent 10).2 key mB
          restSystemContent 10).2
        (chatPhase1 σ key mA restSystemContent 10).1 key rA)
      (chatPhase1 (chatPhase1 σ key mA restSystemContent 10).2 key mB
        restSystemContent 10).1 key rB _ heap3
    rw [hfinal]
    simp

/-- Claim C9 amended-claim witness: the concrete interleaving on an existing
empty history. -/
theorem C9_interleaving_witness :
    (interleavedChat (Store.mk [("k", 5)] [(5, [])] 6) "k" "a" "b" "ra" "rb").windowB
      = Message.mk "system" restSystemContent
          :: sliceLast ([] ++ [Message.mk "user" "a", Message.mk "user" "b"]) 10 :=
  (C9_interleaving (Store.mk [("k", 5)] [(5, [])] 6) "k" "a" "b" "ra" "rb" 5 []
    (by decide) (by decide)).1

/-- Claim C10: a `POST /api/chat` message that is empty or consists only of
whitespace (its trimmed content is empty) is rejected with status 400, the
store is untouched (no history appended), and the provider is never
called. -/
theorem C10_whitespace_only (σ : Store) (msg cid uid now : String)
    (pr : ProviderResult) (hm : trimEmpty msg = true) :
    (postChat σ (some msg) cid uid pr now).status = 400
  ∧ (postChat σ (some msg) cid uid pr now).store = σ
  ∧ (postChat σ (some msg) cid uid pr now).providerCalled = false := by
  refine ⟨?_, ?_, ?_⟩ <;> simp [postChat, hm]

/-- Claim C10 witness: a three-space message is rejected with 400, the store
is unchanged, and the provider is not called. -/
theorem C10_whitespace_only_witness :
    (postChat Store.empty (some "   ") "c" "u" (ProviderResult.ok "hello") "t0").status = 400
  ∧ (postChat Store.empty (some "   ") "c" "u" (ProviderResult.ok "hello") "t0").store
      = Store.empty
  ∧ (postChat Store.empty (some "   ") "c" "u" (ProviderResult.ok "hello") "t0").providerCalled
      = false :=
  C10_whitespace_only Store.empty "   " "c" "u" "t0" (ProviderResult.ok "hello") (by decide)

end Chatbot
